import Mathlib

/-!
Shallow embedding of `myDebugger/Debugger.h` (namespace `Debugger`), a
header-only C++ benchmarking/diagnostics utility, together with proofs of
its specified properties.

Modelling conventions:
* `uint64_t` values are `Nat` with explicit reduction `% 2 ^ 64` where C
  unsigned wraparound matters (`wsub` is unsigned 64-bit subtraction).
* `std::chrono` time points are `Int` nanosecond counts since an arbitrary
  epoch (the MSVC `steady_clock`/`high_resolution_clock` tick is 1 ns);
  `duration_cast` to a coarser unit is C++ integer division, i.e. division
  truncating toward zero, which is `Int.tdiv`.
* Reads of the hardware cycle counter (`clocks()`, i.e. `rdtsc`) and of the
  monotonic clock are modelled by passing the read values in explicitly, or
  by an environment `Nat → Nat × Int` mapping a read index to the
  (cycle count, timestamp) pair it returns.
* The user-supplied callable handed to `benchmark` is a fallible state
  transformer `σ → Except ε σ`; a C++ exception is the `Except.error` case.
* `double` values produced by `getCPU`/`compareData` are modelled as exact
  rationals (`ℚ`); the claims about them only concern signs, equalities of
  exactly representable values, and which output lines appear.
-/

namespace Debugger

/-- The six `std::chrono` duration unit types that `endBench`'s label table
recognizes. -/
inductive DurationUnit where
  | nanoseconds
  | microseconds
  | milliseconds
  | seconds
  | minutes
  | hours
deriving DecidableEq, Repr

/-- Length of one tick of each unit, in nanoseconds (the `Duration::period`
of the corresponding `std::chrono` alias, relative to the 1 ns clock tick). -/
def nanosPer : DurationUnit → Nat
  | .nanoseconds => 1
  | .microseconds => 1000
  | .milliseconds => 1000000
  | .seconds => 1000000000
  | .minutes => 60000000000
  | .hours => 3600000000000

/-- Modulus of `uint64_t` / `ULONGLONG`. -/
def U64 : Nat := 2 ^ 64

/-- Unsigned 64-bit subtraction `a - b` as performed on `uint64_t`:
the result is the difference modulo `2^64` (wraps when `b > a`). -/
def wsub (a b : Nat) : Nat := (a % U64 + U64 - b % U64) % U64

/-- Models `type_name<Duration>()` (Debugger.h lines 23-38) for the six
chrono duration aliases on MSVC, the platform whose `typeid(TR).name()`
output the string table in `endBench` (lines 68-73) is written against:
under `_MSC_VER` the demangler branch is compiled out and the raw
`typeid` name below is returned. -/
def type_name : DurationUnit → String
  | .milliseconds => "class std::chrono::duration<__int64,struct std::ratio<1,1000> >"
  | .nanoseconds => "class std::chrono::duration<__int64,struct std::ratio<1,1000000000> >"
  | .seconds => "class std::chrono::duration<__int64,struct std::ratio<1,1> >"
  | .microseconds => "class std::chrono::duration<__int64,struct std::ratio<1,1000000> >"
  | .minutes => "class std::chrono::duration<int,struct std::ratio<60,1> >"
  | .hours => "class std::chrono::duration<int,struct std::ratio<3600,1> >"

/-- The six fixed compiler-specific type-name strings `endBench` compares
against, in source order (Debugger.h lines 68-73). -/
def msvcDurationNames : List String :=
  [ "class std::chrono::duration<__int64,struct std::ratio<1,1000> >",
    "class std::chrono::duration<__int64,struct std::ratio<1,1000000000> >",
    "class std::chrono::duration<__int64,struct std::ratio<1,1> >",
    "class std::chrono::duration<__int64,struct std::ratio<1,1000000> >",
    "class std::chrono::duration<int,struct std::ratio<60,1> >",
    "class std::chrono::duration<int,struct std::ratio<3600,1> >" ]

/-- The if/else chain of `endBench` (Debugger.h lines 68-73) that rewrites a
recognized demangled type name to its unit label and leaves any other
string unchanged. -/
def endBenchLabel (type : String) : String :=
  if type = "class std::chrono::duration<__int64,struct std::ratio<1,1000> >" then
    "milliseconds"
  else if type = "class std::chrono::duration<__int64,struct std::ratio<1,1000000000> >" then
    "nanoseconds"
  else if type = "class std::chrono::duration<__int64,struct std::ratio<1,1> >" then
    "seconds"
  else if type = "class std::chrono::duration<__int64,struct std::ratio<1,1000000> >" then
    "microseconds"
  else if type = "class std::chrono::duration<int,struct std::ratio<60,1> >" then
    "minutes"
  else if type = "class std::chrono::duration<int,struct std::ratio<3600,1> >" then
    "hours"
  else type

/-- The spec's duration-unit labeling: each enumerated unit maps 1:1 to a
fixed label string. Stated from the spec's words, to be compared with what
`endBench` actually produces. -/
def unitLabel : DurationUnit → String
  | .nanoseconds => "nanoseconds"
  | .microseconds => "microseconds"
  | .milliseconds => "milliseconds"
  | .seconds => "seconds"
  | .minutes => "minutes"
  | .hours => "hours"

/-- A template instantiation of `endBench`/`benchmark`: the `Duration` type
parameter, carried as its demangled name plus its tick length in
nanoseconds. -/
structure DurationType where
  name : String
  nanos : Nat
deriving DecidableEq, Repr

/-- The `DurationType` of each of the six recognized chrono aliases. -/
def durationType (u : DurationUnit) : DurationType :=
  ⟨type_name u, nanosPer u⟩

/-- `timer` (Debugger.h line 53): `std::pair<uint64_t,
std::chrono::steady_clock::time_point>` — a captured cycle count plus a
monotonic timestamp (in ns). -/
structure Timer where
  cycles : Nat
  time : Int
deriving DecidableEq, Repr

/-- `getBench` (Debugger.h line 63): reads the cycle counter and the
monotonic clock at read index `i` of the environment `env` and pairs them
into a `timer`. -/
def getBench (env : Nat → Nat × Int) (i : Nat) : Timer :=
  ⟨(env i).1, (env i).2⟩

/-- `duration_cast<Duration>(ns)` applied to a signed nanosecond count:
C++ integer division of the tick count, truncating toward zero. -/
def durationCast (d : DurationType) (ns : Int) : Int :=
  ns.tdiv d.nanos

/-- The data printed by `endBench` (Debugger.h lines 66-75): elapsed cycle
count (unsigned subtraction), unit label, and elapsed wall time in the
requested unit. -/
structure BenchReport where
  cycles : Nat
  label : String
  wall : Int
deriving DecidableEq, Repr

/-- `endBench` (Debugger.h lines 66-75), with the current cycle-counter and
monotonic-clock readings `c1`, `t1` passed in explicitly: computes
`clocks() - start.first` in `uint64_t`, rewrites the demangled `Duration`
name through the label table, and casts the elapsed time to `Duration`. -/
def endBench (d : DurationType) (start : Timer) (c1 : Nat) (t1 : Int) : BenchReport :=
  { cycles := wsub c1 start.cycles
    label := endBenchLabel d.name
    wall := durationCast d (t1 - start.time) }

/-- `benchmark` (Debugger.h lines 56-60), with the clock readings `c0`
(cycles at start), `t0` (time at start) and `t1` (time after the call)
passed in explicitly. The callable `f` is a fallible state transformer; a
raised exception is `Except.error`. The source captures
`beg = (clocks(), now())`, invokes the callable once (an exception
propagates out of `benchmark`, which has no try/catch), then returns only
`duration_cast<Duration>(now() - beg.second).count()`; `beg.first` is never
read. -/
def benchmark {σ ε : Type} (d : DurationType) (f : σ → Except ε σ) (s : σ)
    (c0 : Nat) (t0 t1 : Int) : Except ε (σ × Int) :=
  let beg : Timer := ⟨c0, t0⟩
  match f s with
  | .error e => .error e
  | .ok s2 => .ok (s2, durationCast d (t1 - beg.time))

/-- `benchmark` with the `Duration` template parameter left to its default,
`std::chrono::microseconds` (Debugger.h line 56). -/
def benchmarkDefault {σ ε : Type} (f : σ → Except ε σ) (s : σ)
    (c0 : Nat) (t0 t1 : Int) : Except ε (σ × Int) :=
  benchmark (durationType .microseconds) f s c0 t0 t1

/-- The mutable static sample state used by `getCPU` (Debugger.h lines
94-98): the `ULARGE_INTEGER` values `lastCPU`, `lastSysCPU`, `lastUserCPU`
stored by the previous call (or by `initCPU`). -/
structure CPUState where
  lastCPU : Nat
  lastSysCPU : Nat
  lastUserCPU : Nat
deriving DecidableEq, Repr

/-- Sentinel returned by `getCPU` when no measurable interval has elapsed:
the literal `-0.1` on Debugger.h line 130. -/
def cpuSentinel : ℚ := -(1 / 10)

/-- The percentage expression of `getCPU` (Debugger.h line 130) on its
computed branch: all operands are `ULONGLONG`, so the subtractions wrap mod
`2^64`, the additions and the `* 100` reduce mod `2^64`, and both divisions
are unsigned integer divisions (`numProcessors`, an `int` guarded positive,
is converted to `ULONGLONG`). The resulting unsigned integer is then
converted to `double`, modelled as the exact rational. -/
def cpuPercent (numProcessors : Int) (st : CPUState) (now sys user : Nat) : ℚ :=
  (((wsub sys st.lastSysCPU + wsub user st.lastUserCPU) % U64
      / wsub now st.lastCPU / numProcessors.toNat * 100) % U64 : Nat)

/-- `getCPU` (Debugger.h lines 120-136), with the freshly read samples
`now`, `sys`, `user` (system time and process kernel/user times, as
`ULARGE_INTEGER`) passed in explicitly: returns the computed percentage
when `numProcessors > 0` and the wall-clock delta is nonzero, the `-0.1`
sentinel otherwise, and in both cases the updated sample state that the
source writes back into the statics before returning. -/
def getCPU (numProcessors : Int) (st : CPUState) (now sys user : Nat) :
    ℚ × CPUState :=
  let percent : ℚ :=
    if 0 < numProcessors ∧ wsub now st.lastCPU ≠ 0 then
      cpuPercent numProcessors st now sys user
    else cpuSentinel
  (percent, ⟨now, sys, user⟩)

/-- The `memory` struct (Debugger.h lines 79-83); the `double` fields are
modelled as exact rationals. -/
structure memory where
  virtTotal : Nat
  virtUsed : Nat
  virtProg : Nat
  ramTotal : Nat
  ramUsed : Nat
  ramProg : Nat
  cpuTotal : ℚ
  cpuProg : ℚ
deriving DecidableEq, Repr

/-- Modulus of a 32-bit value (`long` on MSVC is 32 bits). -/
def U32 : Nat := 2 ^ 32

/-- `static_cast<long>` of a `uint64_t` on MSVC: keep the low 32 bits and
reinterpret them as a signed two's-complement value. -/
def toLong (x : Nat) : Int :=
  if x % U32 < 2 ^ 31 then (x % U32 : Nat) else (x % U32 : Nat) - (U32 : Nat)

/-- One output line of `compareData`, tagged by which statistic it reports
and carrying the printed value (float arithmetic modelled as exact
rationals). -/
inductive OutLine where
  | virt (v : ℚ)
  | ram (v : ℚ)
  | cpu (v : ℚ)
deriving DecidableEq, Repr

/-- `compareData` (Debugger.h lines 152-157), with the current snapshot
(obtained in the source by calling `getData()`) passed in explicitly: it
always prints the virtual-memory and RAM consumption lines, and prints the
CPU-usage line only when both snapshots' per-process CPU values are
strictly positive. -/
def compareData (pastData curData : memory) : List OutLine :=
  [ .virt ((toLong (wsub curData.virtProg pastData.virtProg) * 100 : ℚ)
        / (curData.virtTotal : ℚ)),
    .ram ((toLong (wsub curData.ramProg pastData.ramProg) * 100 : ℚ)
        / (curData.ramTotal : ℚ)) ]
  ++ (if 0 < curData.cpuProg ∧ 0 < pastData.cpuProg then
        [.cpu (curData.cpuProg - pastData.cpuProg)]
      else [])

/-! Helper lemmas shared by the claim theorems. -/

/-- Unsigned 64-bit subtraction agrees with true subtraction when no wrap
occurs. -/
theorem wsub_of_le {a b : Nat} (ha : a < U64) (hb : b < U64) (h : b ≤ a) :
    wsub a b = a - b := by
  unfold wsub
  rw [Nat.mod_eq_of_lt ha, Nat.mod_eq_of_lt hb]
  have e : a + U64 - b = (a - b) + U64 := by omega
  rw [e, Nat.add_mod_right, Nat.mod_eq_of_lt (by omega)]

/-- Unsigned 64-bit subtraction wraps when the subtrahend is larger. -/
theorem wsub_of_lt {a b : Nat} (ha : a < U64) (hb : b < U64) (h : a < b) :
    wsub a b = U64 + a - b := by
  unfold wsub
  rw [Nat.mod_eq_of_lt ha, Nat.mod_eq_of_lt hb, Nat.mod_eq_of_lt (by omega)]
  omega

/-- Truncating division bounds, nonnegative dividend: the quotient times the
divisor falls within one divisor below the dividend. -/
theorem tdiv_bounds_nonneg {p : Int} (ns : Int) (hp : 0 < p) (hns : 0 ≤ ns) :
    p * ns.tdiv p ≤ ns ∧ ns < p * (ns.tdiv p + 1) := by
  rw [Int.tdiv_eq_ediv hns hp.le]
  have h1 := Int.ediv_add_emod ns p
  have h2 := Int.emod_nonneg ns (by omega : p ≠ 0)
  have h3 := Int.emod_lt_of_pos ns hp
  refine ⟨by linarith, ?_⟩
  rw [mul_add, mul_one]
  linarith

/-- Truncating division bounds, nonpositive dividend: truncation is toward
zero, so the quotient times the divisor falls within one divisor above the
dividend. -/
theorem tdiv_bounds_nonpos {p : Int} (ns : Int) (hp : 0 < p) (hns : ns ≤ 0) :
    ns ≤ p * ns.tdiv p ∧ p * (ns.tdiv p - 1) < ns := by
  have h := tdiv_bounds_nonneg (-ns) hp (by omega)
  rw [Int.neg_tdiv] at h
  have e1 : p * -ns.tdiv p = -(p * ns.tdiv p) := by ring
  have e2 : p * (-ns.tdiv p + 1) = -(p * (ns.tdiv p - 1)) := by ring
  rw [e1, e2] at h
  exact ⟨by linarith [h.1], by linarith [h.2]⟩

/-- Every recognized unit has a positive tick length. -/
theorem nanosPer_pos (u : DurationUnit) : 0 < nanosPer u := by
  cases u <;> decide

/-- C1: `benchmark` invokes the supplied callable exactly once — the state
in a successful result is the state after a single application of `f` —
and when the callable raises, the failure propagates unchanged (the same
error value, not caught, wrapped, or retried) and no elapsed report is
produced. -/
theorem benchmark_invokes_once_propagates {σ ε : Type} (d : DurationType)
    (f : σ → Except ε σ) (s : σ) (c0 : Nat) (t0 t1 : Int) :
    (∀ e, f s = .error e → benchmark d f s c0 t0 t1 = .error e) ∧
    (∀ s2, f s = .ok s2 →
      benchmark d f s c0 t0 t1 = .ok (s2, durationCast d (t1 - t0))) := by
  constructor <;> intro x hx <;> simp [benchmark, hx]

/-- Witness for C1 at a concrete raising callable and a concrete succeeding
callable. -/
theorem benchmark_invokes_once_propagates_witness :
    benchmark (durationType .microseconds)
        (fun _ : Nat => (.error "boom" : Except String Nat)) 0 5 100 2100
      = .error "boom" ∧
    benchmark (durationType .microseconds)
        (fun n : Nat => (.ok (n + 1) : Except String Nat)) 0 5 100 2100
      = .ok (1, 2) := by
  constructor
  · exact (benchmark_invokes_once_propagates (durationType .microseconds)
      (fun _ : Nat => (.error "boom" : Except String Nat)) 0 5 100 2100).1 "boom" rfl
  · have h := (benchmark_invokes_once_propagates (durationType .microseconds)
      (fun n : Nat => (.ok (n + 1) : Except String Nat)) 0 5 100 2100).2 1 rfl
    have e : durationCast (durationType .microseconds) (2100 - 100) = 2 := by decide
    rw [e] at h
    exact h

/-- C2: for each of the six enumerated duration units, the report produced
by `endBench` carries exactly the corresponding fixed label string. -/
theorem endBench_label_of_unit (u : DurationUnit) (start : Timer) (c1 : Nat) (t1 : Int) :
    (endBench (durationType u) start c1 t1).label = unitLabel u := by
  cases u <;> rfl

/-- C3: `endBench` computes the elapsed cycle count by unsigned 64-bit
subtraction: the true difference when the mark precedes the current
reading, and the wrapped value `2^64 + c1 - mark` (never a failure or a
report of overflow) when the mark's count exceeds the current one. -/
theorem endBench_cycles_unsigned_wrap (d : DurationType) (start : Timer)
    (c1 : Nat) (t1 : Int) (hs : start.cycles < U64) (hc : c1 < U64) :
    (start.cycles ≤ c1 → (endBench d start c1 t1).cycles = c1 - start.cycles) ∧
    (c1 < start.cycles → (endBench d start c1 t1).cycles = U64 + c1 - start.cycles) := by
  constructor <;> intro h
  · exact wsub_of_le hc hs h
  · exact wsub_of_lt hc hs h

/-- Witness for C3 on the wrapping branch: mark cycle count 10, current
cycle count 3. -/
theorem endBench_cycles_unsigned_wrap_witness :
    (endBench (durationType .microseconds) ⟨10, 0⟩ 3 0).cycles = U64 + 3 - 10 :=
  (endBench_cycles_unsigned_wrap (durationType .microseconds) ⟨10, 0⟩ 3 0
    (by decide) (by decide)).2 (by decide)

/-- C4: marks captured by `getBench` from a monotone environment (the
platform guarantee for the cycle counter and the steady clock on one
thread and process) are monotone in both components, and `endBench` of the
earlier mark at the later mark's readings yields the exact nonnegative
cycle difference and a nonnegative wall time. -/
theorem getBench_monotone (env : Nat → Nat × Int) (u : DurationUnit) (i j : Nat)
    (hij : i < j)
    (hcyc : ∀ a b, a ≤ b → (env a).1 ≤ (env b).1)
    (htime : ∀ a b, a ≤ b → (env a).2 ≤ (env b).2)
    (hbound : (env j).1 < U64) :
    (getBench env i).cycles ≤ (getBench env j).cycles ∧
    (getBench env i).time ≤ (getBench env j).time ∧
    (endBench (durationType u) (getBench env i) (getBench env j).cycles
        (getBench env j).time).cycles = (env j).1 - (env i).1 ∧
    0 ≤ (endBench (durationType u) (getBench env i) (getBench env j).cycles
        (getBench env j).time).wall := by
  have h1 := hcyc i j hij.le
  have h2 := htime i j hij.le
  refine ⟨h1, h2, ?_, ?_⟩
  · exact wsub_of_le hbound (lt_of_le_of_lt h1 hbound) h1
  · refine Int.tdiv_nonneg ?_ (Int.natCast_nonneg _)
    simp only [getBench]
    omega

/-- Witness for C4 on the environment reading `(n, n)` at index `n`, with
read indices 0 and 1. -/
theorem getBench_monotone_witness :
    (getBench (fun n => (n, (n : Int))) 0).cycles
        ≤ (getBench (fun n => (n, (n : Int))) 1).cycles ∧
    (getBench (fun n => (n, (n : Int))) 0).time
        ≤ (getBench (fun n => (n, (n : Int))) 1).time ∧
    (endBench (durationType .microseconds) (getBench (fun n => (n, (n : Int))) 0)
        (getBench (fun n => (n, (n : Int))) 1).cycles
        (getBench (fun n => (n, (n : Int))) 1).time).cycles = 1 - 0 ∧
    0 ≤ (endBench (durationType .microseconds) (getBench (fun n => (n, (n : Int))) 0)
        (getBench (fun n => (n, (n : Int))) 1).cycles
        (getBench (fun n => (n, (n : Int))) 1).time).wall :=
  getBench_monotone (fun n => (n, (n : Int))) .microseconds 0 1 (by decide)
    (fun a b h => h) (fun a b h => Int.ofNat_le.mpr h) (by decide)

/-- C5: `benchmark` with the `Duration` parameter defaulted equals
`benchmark` at microseconds; its result does not depend on the captured
cycle count; and on success it returns only the wall time cast to the
requested unit (paired with the callable's final state in this embedding). -/
theorem benchmark_wall_only_default_micro {σ ε : Type} (d : DurationType)
    (f : σ → Except ε σ) (s : σ) (c0 c1 : Nat) (t0 t1 : Int) :
    benchmarkDefault f s c0 t0 t1 = benchmark (durationType .microseconds) f s c0 t0 t1 ∧
    benchmark d f s c0 t0 t1 = benchmark d f s c1 t0 t1 ∧
    (∀ s2, f s = .ok s2 →
      benchmark d f s c0 t0 t1 = .ok (s2, durationCast d (t1 - t0))) := by
  refine ⟨rfl, rfl, ?_⟩
  intro s2 h
  simp [benchmark, h]

/-- Witness for C5 with differing cycle captures 5 and 77 and a concrete
succeeding callable. -/
theorem benchmark_wall_only_default_micro_witness :
    benchmarkDefault (fun n : Nat => (.ok (n + 1) : Except String Nat)) 0 5 100 2100
      = benchmark (durationType .microseconds)
          (fun n : Nat => (.ok (n + 1) : Except String Nat)) 0 5 100 2100 ∧
    benchmark (durationType .milliseconds)
        (fun n : Nat => (.ok (n + 1) : Except String Nat)) 0 5 100 2100
      = benchmark (durationType .milliseconds)
          (fun n : Nat => (.ok (n + 1) : Except String Nat)) 0 77 100 2100 ∧
    benchmark (durationType .milliseconds)
        (fun n : Nat => (.ok (n + 1) : Except String Nat)) 0 5 100 2100
      = .ok (1, 0) := by
  have h := benchmark_wall_only_default_micro (durationType .milliseconds)
    (fun n : Nat => (.ok (n + 1) : Except String Nat)) 0 5 77 100 2100
  refine ⟨?_, h.2.1, ?_⟩
  · exact (benchmark_wall_only_default_micro (durationType .microseconds)
      (fun n : Nat => (.ok (n + 1) : Except String Nat)) 0 5 77 100 2100).1
  · have h3 := h.2.2 1 rfl
    have e : durationCast (durationType .milliseconds) (2100 - 100) = 0 := by decide
    rw [e] at h3
    exact h3

/-- C6: the wall time reported by `endBench` is the elapsed duration (in
ns) converted to the requested unit by truncation toward zero, never by
rounding: for a nonnegative elapsed time the reported count times the tick
length is at most the elapsed time and within one tick below it, and
symmetrically above it for a nonpositive elapsed time. -/
theorem endBench_wall_truncation (u : DurationUnit) (start : Timer) (c1 : Nat) (t1 : Int) :
    (0 ≤ t1 - start.time →
      (nanosPer u : Int) * (endBench (durationType u) start c1 t1).wall ≤ t1 - start.time ∧
      t1 - start.time < (nanosPer u : Int) * ((endBench (durationType u) start c1 t1).wall + 1)) ∧
    (t1 - start.time ≤ 0 →
      t1 - start.time ≤ (nanosPer u : Int) * (endBench (durationType u) start c1 t1).wall ∧
      (nanosPer u : Int) * ((endBench (durationType u) start c1 t1).wall - 1) < t1 - start.time) := by
  have hp : (0 : Int) < (nanosPer u : Int) := by exact_mod_cast nanosPer_pos u
  simp only [endBench, durationCast, durationType]
  exact ⟨tdiv_bounds_nonneg _ hp, tdiv_bounds_nonpos _ hp⟩

/-- Witness for C6 at elapsed time 0, where both sign hypotheses hold. -/
theorem endBench_wall_truncation_witness :
    ((nanosPer .microseconds : Int)
        * (endBench (durationType .microseconds) ⟨0, 0⟩ 0 0).wall ≤ 0 - (0 : Int) ∧
      0 - (0 : Int) < (nanosPer .microseconds : Int)
        * ((endBench (durationType .microseconds) ⟨0, 0⟩ 0 0).wall + 1)) ∧
    (0 - (0 : Int) ≤ (nanosPer .microseconds : Int)
        * (endBench (durationType .microseconds) ⟨0, 0⟩ 0 0).wall ∧
      (nanosPer .microseconds : Int)
        * ((endBench (durationType .microseconds) ⟨0, 0⟩ 0 0).wall - 1) < 0 - (0 : Int)) := by
  have h := endBench_wall_truncation .microseconds ⟨0, 0⟩ 0 0
  exact ⟨h.1 (by decide), h.2 (by decide)⟩

/-- C7: `getCPU` returns a negative value exactly when the guard fails —
the processor count is not positive or the unsigned wall-clock delta since
the stored last sample is zero — in which case it returns the `-0.1`
sentinel; otherwise it returns the computed (nonnegative) percentage. -/
theorem getCPU_negative_iff_no_interval (np : Int) (st : CPUState) (now sys user : Nat) :
    ((getCPU np st now sys user).1 < 0 ↔ ¬(0 < np ∧ wsub now st.lastCPU ≠ 0)) ∧
    (¬(0 < np ∧ wsub now st.lastCPU ≠ 0) →
      (getCPU np st now sys user).1 = cpuSentinel) ∧
    ((0 < np ∧ wsub now st.lastCPU ≠ 0) →
      (getCPU np st now sys user).1 = cpuPercent np st now sys user) := by
  refine ⟨⟨fun hlt hg => ?_, fun hng => ?_⟩,
    fun h => by simp only [getCPU, if_neg h], fun h => by simp only [getCPU, if_pos h]⟩
  · rw [(by simp only [getCPU, if_pos hg] :
        (getCPU np st now sys user).1 = cpuPercent np st now sys user)] at hlt
    have h0 : (0 : ℚ) ≤ cpuPercent np st now sys user := by
      unfold cpuPercent
      exact Nat.cast_nonneg _
    exact absurd hlt (not_lt.mpr h0)
  · rw [(by simp only [getCPU, if_neg hng] :
        (getCPU np st now sys user).1 = cpuSentinel)]
    norm_num [cpuSentinel]

/-- Witness for C7: a zero wall-clock delta yields the sentinel; a nonzero
delta with one processor yields the computed percentage. -/
theorem getCPU_negative_iff_no_interval_witness :
    (getCPU 1 ⟨0, 0, 0⟩ 0 0 0).1 = cpuSentinel ∧
    (getCPU 1 ⟨0, 0, 0⟩ 2 4 6).1 = cpuPercent 1 ⟨0, 0, 0⟩ 2 4 6 :=
  ⟨(getCPU_negative_iff_no_interval 1 ⟨0, 0, 0⟩ 0 0 0).2.1 (by decide),
   (getCPU_negative_iff_no_interval 1 ⟨0, 0, 0⟩ 2 4 6).2.2 (by decide)⟩

/-- C8: for a `Duration` instantiation whose demangled name is not one of
the six fixed compiler-specific strings, `endBench` falls through the whole
comparison chain and prints the raw demangled type name unmodified as the
label. -/
theorem endBench_label_unmatched_raw (d : DurationType) (start : Timer)
    (c1 : Nat) (t1 : Int) (h : d.name ∉ msvcDurationNames) :
    (endBench d start c1 t1).label = d.name := by
  simp only [msvcDurationNames, List.mem_cons, List.not_mem_nil, or_false, not_or] at h
  obtain ⟨h1, h2, h3, h4, h5, h6⟩ := h
  simp only [endBench, endBenchLabel, if_neg h1, if_neg h2, if_neg h3, if_neg h4,
    if_neg h5, if_neg h6]

/-- Witness for C8 at a GCC-style demangled name, which matches none of the
six MSVC strings. -/
theorem endBench_label_unmatched_raw_witness :
    (endBench ⟨"std::chrono::duration<long, std::ratio<1l, 1000000l> >", 1000⟩
        ⟨0, 0⟩ 0 0).label
      = "std::chrono::duration<long, std::ratio<1l, 1000000l> >" :=
  endBench_label_unmatched_raw
    ⟨"std::chrono::duration<long, std::ratio<1l, 1000000l> >", 1000⟩
    ⟨0, 0⟩ 0 0 (by decide)

/-- C9: every call to `getCPU` overwrites the stored last-sample state with
the freshly read samples — unconditionally, so in particular also on the
branch that returns the negative sentinel. -/
theorem getCPU_always_updates_state (np : Int) (st : CPUState) (now sys user : Nat) :
    (getCPU np st now sys user).2 = ⟨now, sys, user⟩ := rfl

/-- C10: `compareData` emits the CPU-usage line exactly when both
snapshots' per-process CPU values are strictly positive, and emits the
virtual-memory and RAM lines unconditionally. -/
theorem compareData_cpu_line_gated (pastData curData : memory) :
    ((∃ v, OutLine.cpu v ∈ compareData pastData curData) ↔
      0 < curData.cpuProg ∧ 0 < pastData.cpuProg) ∧
    (∃ v, OutLine.virt v ∈ compareData pastData curData) ∧
    (∃ v, OutLine.ram v ∈ compareData pastData curData) := by
  by_cases h : 0 < curData.cpuProg ∧ 0 < pastData.cpuProg
  · refine ⟨⟨fun _ => h, fun _ => ⟨curData.cpuProg - pastData.cpuProg,
        by simp [compareData, h]⟩⟩,
      ⟨(toLong (wsub curData.virtProg pastData.virtProg) * 100 : ℚ)
          / (curData.virtTotal : ℚ), by simp [compareData, h]⟩,
      ⟨(toLong (wsub curData.ramProg pastData.ramProg) * 100 : ℚ)
          / (curData.ramTotal : ℚ), by simp [compareData, h]⟩⟩
  · refine ⟨⟨fun hc => ?_, fun hc => absurd hc h⟩,
      ⟨(toLong (wsub curData.virtProg pastData.virtProg) * 100 : ℚ)
          / (curData.virtTotal : ℚ), by simp [compareData, h]⟩,
      ⟨(toLong (wsub curData.ramProg pastData.ramProg) * 100 : ℚ)
          / (curData.ramTotal : ℚ), by simp [compareData, h]⟩⟩
    obtain ⟨v, hv⟩ := hc
    simp [compareData, h] at hv

end Debugger
